import Mathlib

/-!
Verification development for the meteo_api client library
(src/meteo_api/meteo_client.py).

The development shallowly embeds the JSON-to-table normalization routine
(`_find_record_path`, `_flatten_meta`, `_set_timestamp_index`,
`_json_to_dataframe`), the eight HTTP endpoint methods, and the
date-range retry loop (`get_station_historical_observations_range`).

Modelling conventions:
* JSON values are the inductive `Meteo.Json`; Python dicts are association
  lists with unique keys in insertion order (theorems assume `Nodup` keys
  where the code relies on dict semantics).
* pandas DataFrames are `Meteo.DataFrame`: ordered column labels, rows of
  cells, an index column and an optional index name.  Only the pandas
  behaviour exercised by this repository is modelled: `pd.DataFrame` on a
  JSON list, `pd.json_normalize(data, record_path, meta)` including its
  "Conflicting metadata name" ValueError, `pd.to_datetime(errors="coerce")`,
  `Series.dt.tz_localize("UTC")`, `Series.dt.tz_convert`, `set_index`,
  `rename_axis`, `sort_index` (ascending, NaT last), `DataFrame.empty`
  and `pd.concat`.
* datetimes are cells `Cell.dt instant tz` ordered by their instant; the
  instant is a monotone mixed-radix encoding of the parsed calendar fields.
  `pd.to_datetime(errors="coerce")` is modelled for the timestamp format
  the Meteo.lt API emits, "YYYY-MM-DD HH:MM:SS"; any other cell is coerced
  to `Cell.naT`, as errors="coerce" does for unparseable input.
* HTTP is abstracted by passing the `Meteo.Response` (status and parsed
  JSON body) a method would receive; `raise_for_status` raises exactly for
  status codes in [400, 600).
* Python dates are their proleptic-Gregorian ordinals (as in
  `datetime.date.toordinal`); `date.isoformat()` is `Meteo.isoOfOrdinal`
  and `timedelta(days=1)` addition is ordinal successor.
-/

namespace Meteo

/-- JSON values as returned by `response.json()`.  Numbers are modelled as
integers; no claim depends on fractional numeric values. -/
inductive Json where
  | null
  | bool (b : Bool)
  | num (n : Int)
  | str (s : String)
  | arr (xs : List Json)
  | obj (kvs : List (String × Json))
deriving Repr

/-- Python `isinstance(v, dict)`. -/
def Json.isObj : Json → Bool
  | .obj _ => true
  | _ => false

/-- Python `isinstance(v, list)`. -/
def Json.isArr : Json → Bool
  | .arr _ => true
  | _ => false

/-- Fields of a JSON object (empty for non-objects). -/
def Json.objKVs : Json → List (String × Json)
  | .obj kvs => kvs
  | _ => []

/-- Elements of a JSON array (empty for non-arrays). -/
def Json.arrElems : Json → List Json
  | .arr xs => xs
  | _ => []

/-- Python dict lookup `data[k]` / `k in data`: first binding of the key. -/
def dlookup : List (String × Json) → String → Option Json
  | [], _ => none
  | kv :: rest, k => if kv.1 = k then some kv.2 else dlookup rest k

/-- Python dict assignment `d[k] = v`: overwrite in place when the key is
present (keeping its position), append otherwise. -/
def dictInsert (d : List (String × Json)) (k : String) (v : Json) :
    List (String × Json) :=
  if d.any (fun kv => kv.1 = k) then
    d.map (fun kv => if kv.1 = k then (k, v) else kv)
  else d ++ [(k, v)]

/-- The test `isinstance(val, list) and val and isinstance(val[0], dict)`
from `_find_record_path`. -/
def isRecordList : Json → Bool
  | .arr (x :: _) => x.isObj
  | _ => false

/-- The fallback scan of `_find_record_path`: first key whose value is a
non-empty list whose first element is a dict. -/
def firstGoodKey : List (String × Json) → Option String
  | [] => none
  | kv :: rest => if isRecordList kv.2 then some kv.1 else firstGoodKey rest

/-- MeteoClient._find_record_path.  The guard `if record_path and
record_path in data` uses Python truthiness, so an empty-string
record_path is treated like None. -/
def find_record_path (data : List (String × Json))
    (record_path : Option String) : Option String :=
  match record_path with
  | some rp =>
    if rp = "" then firstGoodKey data
    else
      match dlookup data rp with
      | some v => if isRecordList v then some rp else firstGoodKey data
      | none => firstGoodKey data
  | none => firstGoodKey data

/-- Inner loop of `_flatten_meta`, threading the accumulated Python dict. -/
def flattenGo (rp : String) :
    List (String × Json) → List (String × Json) → List (String × Json)
  | acc, [] => acc
  | acc, kv :: rest =>
    if kv.1 = rp then flattenGo rp acc rest
    else
      match kv.2 with
      | Json.obj sub =>
        flattenGo rp
          (sub.foldl (fun a p => dictInsert a (kv.1 ++ "_" ++ p.1) p.2) acc) rest
      | _ => flattenGo rp (dictInsert acc kv.1 kv.2) rest

/-- MeteoClient._flatten_meta: flatten the top-level keys other than the
record path into a Python dict. -/
def flatten_meta (data : List (String × Json)) (rp : String) :
    List (String × Json) :=
  flattenGo rp [] data

/-- Entry list `_flatten_meta` is intended to produce: one `key_subkey`
entry per subkey of a dict value, one `key` entry otherwise, nothing for
the record path.  `flatten_meta` agrees with it exactly when these names
are pairwise distinct (otherwise dict assignment overwrites). -/
def metaPairs (data : List (String × Json)) (rp : String) :
    List (String × Json) :=
  data.flatMap (fun kv =>
    if kv.1 = rp then []
    else
      match kv.2 with
      | Json.obj sub => sub.map (fun p => (kv.1 ++ "_" ++ p.1, p.2))
      | _ => [kv])

/-- Cells of the modelled DataFrame. -/
inductive Cell where
  | jv (j : Json)
  | nan
  | naT
  | dt (instant : Nat) (tz : Option String)
deriving Repr

/-- Modelled pandas DataFrame: column labels, rows of cells aligned with
the columns, the index column and its name. -/
structure DataFrame where
  cols : List String
  rows : List (List Cell)
  indexName : Option String
  index : List Cell
deriving Repr

/-- Well-formedness: rows are aligned with the column list and the index
has one entry per row. -/
def DataFrame.WF (df : DataFrame) : Prop :=
  (∀ r ∈ df.rows, r.length = df.cols.length) ∧
    df.index.length = df.rows.length

/-- pandas `pd.DataFrame()`. -/
def emptyFrame : DataFrame := ⟨[], [], none, []⟩

/-- pandas `DataFrame.empty`: some axis has length zero. -/
def DataFrame.isEmpty (df : DataFrame) : Bool :=
  df.rows.isEmpty || df.cols.isEmpty

/-- Default RangeIndex of a freshly constructed frame. -/
def defaultIndex (n : Nat) : List Cell :=
  (List.range n).map (fun i => Cell.jv (Json.num (Int.ofNat i)))

/-- First index of a column label, as pandas label lookup does. -/
def colIdx : List String → String → Option Nat
  | [], _ => none
  | c :: rest, k => if c = k then some 0 else (colIdx rest k).map (· + 1)

/-- Cell stored under a column label in one row. -/
def cellAt (cols : List String) (row : List Cell) (c : String) : Option Cell :=
  (colIdx cols c).bind (fun i => row[i]?)

/-- Accumulate column labels in order of first appearance. -/
def colUnion1 (acc : List String) (ks : List String) : List String :=
  ks.foldl (fun a k => if a.contains k then a else a ++ [k]) acc

/-- Column labels of a record frame: keys in order of first appearance. -/
def colUnion (rs : List (List (String × Json))) : List String :=
  rs.foldl (fun acc r => colUnion1 acc (r.map Prod.fst)) []

/-- Rows of a record frame: one row per record, `NaN` for missing keys. -/
def recordRows (recs : List (List (String × Json))) (cols : List String) :
    List (List Cell) :=
  recs.map (fun r => cols.map (fun c =>
    match dlookup r c with
    | some v => Cell.jv v
    | none => Cell.nan))

/-- Longest row of a list-of-lists input. -/
def maxLen (rs : List (List Json)) : Nat :=
  rs.foldl (fun m r => max m r.length) 0

/-- Pad one list row to the common width, `NaN` past its end. -/
def padRow (r : List Json) (k : Nat) : List Cell :=
  (List.range k).map (fun i =>
    match r[i]? with
    | some v => Cell.jv v
    | none => Cell.nan)

/-- pandas `pd.DataFrame(json_list)`.  A list whose first element is a
dict is read as records and requires every element to be a dict
(`DataFrame` construction raises otherwise); a list whose first element
is a list is read as rows; any other list becomes a single object column
labelled "0" (integer column labels are rendered as strings here). -/
def pdDataFrameOfList (xs : List Json) : Except String DataFrame :=
  match xs with
  | [] => .ok emptyFrame
  | x :: _ =>
    if x.isObj then
      if xs.all Json.isObj then
        let recs := xs.map Json.objKVs
        let cols := colUnion recs
        .ok ⟨cols, recordRows recs cols, none, defaultIndex xs.length⟩
      else .error "DataFrame: mixing dicts with non-dict rows"
    else if x.isArr then
      if xs.all Json.isArr then
        let rws := xs.map Json.arrElems
        let k := maxLen rws
        .ok ⟨(List.range k).map (fun i => toString i),
             rws.map (fun r => padRow r k), none, defaultIndex xs.length⟩
      else .error "DataFrame: mixing lists with non-list rows"
    else
      .ok ⟨["0"], xs.map (fun j => [Cell.jv j]), none, defaultIndex xs.length⟩

mutual

/-- Contribution of one record field to pandas `nested_to_record`: a
dict value is flattened below the lengthened prefix, any other value is
a single entry. -/
def flattenField (pre k : String) : Json → List (String × Json)
  | Json.obj sub => flattenKVs (pre ++ k ++ ".") sub
  | v => [(pre ++ k, v)]

/-- Shape condition under which the pandas `DataFrame` constructor
accepts a JSON list: a list whose first element is a dict (resp. a
list) must consist of dicts (resp. lists) throughout; any other list is
read as a single object column. -/
def listShapeOk (xs : List Json) : Bool :=
  match xs with
  | [] => true
  | x :: rest =>
    if x.isObj then (x :: rest).all Json.isObj
    else if x.isArr then (x :: rest).all Json.isArr
    else true

/-- pandas `nested_to_record` with separator ".": flatten nested dict
values of a record, as `json_normalize` applies to each record. -/
def flattenKVs (pre : String) : List (String × Json) → List (String × Json)
  | [] => []
  | (k, v) :: rest => flattenField pre k v ++ flattenKVs pre rest

end

/-- Records after the `nested_to_record` pass of `json_normalize`. -/
def normFlatRecs (records : List Json) : List (List (String × Json)) :=
  records.map (fun r => flattenKVs "" r.objKVs)

/-- Record columns of `json_normalize`: flattened keys in order of first
appearance. -/
def normRecCols (records : List Json) : List String :=
  colUnion (normFlatRecs records)

/-- Constant meta cells `json_normalize` appends to every record row.  A
meta key equal to `rp` picks up the record list itself, because in the
dict literal `{**meta, rp: records}` the later `rp` entry wins. -/
def normMetaCells (metaL : List (String × Json)) (rp : String)
    (records : List Json) : List Cell :=
  metaL.map (fun kv =>
    if kv.1 = rp then Cell.jv (Json.arr records) else Cell.jv kv.2)

/-- One result row of `json_normalize`: the record's cells under the
record columns (NaN when absent), then the meta cells. -/
def normRow (metaL : List (String × Json)) (rp : String)
    (records : List Json) (fr : List (String × Json)) : List Cell :=
  (normRecCols records).map (fun c =>
    match dlookup fr c with
    | some v => Cell.jv v
    | none => Cell.nan) ++ normMetaCells metaL rp records

/-- pandas `pd.json_normalize(data={**meta, rp: records}, record_path=rp,
meta=list(meta.keys()))` as `_json_to_dataframe` invokes it: records are
flattened with `nested_to_record`, record columns come first, each meta
key is appended as a constant column and a meta key colliding with a
record column raises `ValueError("Conflicting metadata name ...")`. -/
def jsonNormalize (metaL : List (String × Json)) (rp : String)
    (records : List Json) : Except String DataFrame :=
  if records.all Json.isObj then
    if metaL.any (fun kv => (normRecCols records).contains kv.1) then
      .error "Conflicting metadata name"
    else
      .ok ⟨normRecCols records ++ metaL.map Prod.fst,
           (normFlatRecs records).map (normRow metaL rp records),
           none, defaultIndex records.length⟩
  else .error "DataFrame: mixing dicts with non-dict rows"

/-- Decimal digit value of a character code. -/
def digitVal (c : Char) : Nat := c.toNat - 48

/-- True when a character code is a decimal digit. -/
def isDigitCode (c : Char) : Bool := 48 ≤ c.toNat && c.toNat ≤ 57

/-- pandas `pd.to_datetime(s, errors="coerce")` restricted to the
timestamp format the Meteo.lt API emits, "YYYY-MM-DD HH:MM:SS".  The
result is a monotone mixed-radix instant; strings in any other shape
(or with out-of-range fields) coerce to `none`, that is `NaT`. -/
def parseDt (s : String) : Option Nat :=
  match s.data with
  | [y1, y2, y3, y4, sep1, mo1, mo2, sep2, d1, d2, sp,
     h1, h2, co1, mi1, mi2, co2, s1, s2] =>
    if isDigitCode y1 && isDigitCode y2 && isDigitCode y3 && isDigitCode y4 &&
       isDigitCode mo1 && isDigitCode mo2 && isDigitCode d1 && isDigitCode d2 &&
       isDigitCode h1 && isDigitCode h2 && isDigitCode mi1 && isDigitCode mi2 &&
       isDigitCode s1 && isDigitCode s2 &&
       sep1.toNat = 45 && sep2.toNat = 45 && sp.toNat = 32 &&
       co1.toNat = 58 && co2.toNat = 58 then
      let y := ((digitVal y1 * 10 + digitVal y2) * 10 + digitVal y3) * 10 + digitVal y4
      let mo := digitVal mo1 * 10 + digitVal mo2
      let d := digitVal d1 * 10 + digitVal d2
      let h := digitVal h1 * 10 + digitVal h2
      let mi := digitVal mi1 * 10 + digitVal mi2
      let ss := digitVal s1 * 10 + digitVal s2
      if 1 ≤ mo && mo ≤ 12 && 1 ≤ d && d ≤ 31 && h ≤ 23 && mi ≤ 59 && ss ≤ 59 then
        some (((((y * 13 + mo) * 32 + d) * 24 + h) * 60 + mi) * 60 + ss)
      else none
    else none
  | _ => none

/-- One cell under `pd.to_datetime(col, errors="coerce")`: parse strings,
keep datetimes, coerce everything else to NaT. -/
def toDatetimeCell : Cell → Cell
  | .jv (.str s) =>
    match parseDt s with
    | some t => .dt t none
    | none => .naT
  | .dt t z => .dt t z
  | _ => .naT

/-- One cell under `Series.dt.tz_localize("UTC", ambiguous="infer")`:
a naive datetime becomes UTC-aware at the same instant (UTC localization
is never ambiguous); NaT stays NaT. -/
def tzLocalizeUTC : Cell → Cell
  | .dt t none => .dt t (some "UTC")
  | c => c

/-- One cell under `Series.dt.tz_convert(tz)`: the timezone tag changes,
the instant is preserved; NaT stays NaT. -/
def tzConvertTo (tz : String) : Cell → Cell
  | .dt t _ => .dt t (some tz)
  | c => c

/-- The per-cell effect of the loop body of `_set_timestamp_index`:
to_datetime, tz_localize("UTC"), and tz_convert when `if time_zone:`
is truthy. -/
def convCell (tz : Option String) (c : Cell) : Cell :=
  match tz with
  | some z => tzConvertTo z (tzLocalizeUTC (toDatetimeCell c))
  | none => tzLocalizeUTC (toDatetimeCell c)

/-- Python `s.endswith(post)`, over the character sequence. -/
def strEndsWith (s post : String) : Bool :=
  if post.data.length ≤ s.data.length then
    (s.data.drop (s.data.length - post.data.length)) == post.data
  else false

/-- The column test `col.endswith("TimeUtc")`. -/
def isTimeCol (c : String) : Bool := strEndsWith c "TimeUtc"

/-- Apply `convCell` to the cells of the timestamp columns of one row. -/
def convRow (tz : Option String) (cols : List String) (row : List Cell) :
    List Cell :=
  (cols.zip row).map (fun p => if isTimeCol p.1 then convCell tz p.2 else p.2)

/-- Sort key of an index cell: datetimes by instant, then NaT
(`sort_index` puts missing values last), then anything else. -/
def cellKey : Cell → Nat × Nat
  | .dt t _ => (0, t)
  | .naT => (1, 0)
  | _ => (2, 0)

/-- Total comparison used to model `sort_index()` (ascending). -/
def cellLe (a b : Cell) : Bool :=
  (cellKey a).1 < (cellKey b).1 ||
    ((cellKey a).1 = (cellKey b).1 && (cellKey a).2 ≤ (cellKey b).2)

/-- Position of the first timestamp column, as `df.set_index` locates
the label `time_columns[0]`. -/
def stiIndexPos (df : DataFrame) (t0 : String) : Nat :=
  (colIdx df.cols t0).getD 0

/-- Rows after the conversion loop of `_set_timestamp_index`, paired as
(index cell at the first timestamp column, remaining row). -/
def stiPairs (df : DataFrame) (tz : Option String) (i : Nat) :
    List (Cell × List Cell) :=
  (df.rows.map (convRow tz df.cols)).map
    (fun row => ((row[i]?).getD Cell.nan, row.eraseIdx i))

/-- The pairs of `stiPairs` sorted ascending by index cell, as
`sort_index()` does. -/
def stiSorted (df : DataFrame) (tz : Option String) (i : Nat) :
    List (Cell × List Cell) :=
  (stiPairs df tz i).mergeSort (fun a b => cellLe a.1 b.1)

/-- MeteoClient._set_timestamp_index: convert every column ending in
"TimeUtc" to timezone-aware datetimes, move the first such column into
the index, rename the index "timestamp" and sort ascending by it.  With
no such column the frame is returned unchanged (only a warning is
logged). -/
def set_timestamp_index (df : DataFrame) (tz : Option String) : DataFrame :=
  match df.cols.filter isTimeCol with
  | [] => df
  | t0 :: _ =>
    ⟨df.cols.eraseIdx (stiIndexPos df t0),
     (stiSorted df tz (stiIndexPos df t0)).map Prod.snd,
     some "timestamp",
     (stiSorted df tz (stiIndexPos df t0)).map Prod.fst⟩

/-- The timezone name the conversion pipeline tags cells with: the
requested timezone, or UTC when none is given. -/
def tzName (tz : Option String) : String := tz.getD "UTC"

/-- A cell as the claim expects it after timestamp conversion: a
timezone-aware datetime carrying the requested timezone (UTC-localized,
then converted when a timezone is given), or NaT for values
`errors="coerce"` could not parse. -/
def tzOkCell (tz : Option String) (c : Cell) : Prop :=
  c = Cell.naT ∨ ∃ t, c = Cell.dt t (some (tzName tz))

/-- A cell as it appears in a freshly normalized frame: anything except
an already-converted datetime. -/
def rawCell : Cell → Bool
  | .dt _ _ => false
  | _ => true

/-- MeteoClient._json_to_dataframe: lists become frames directly; dicts
with a record path go through `json_normalize` and timestamp indexing;
other dicts become a single-row frame; every other JSON value becomes an
empty frame.  The guard `if rp:` uses Python truthiness, so a found
record path that is the empty string is falsy and the dict falls through
to the single-row `pd.DataFrame([json_data])` branch, exactly like a
missing record path. -/
def jsonToDataframe (j : Json) (record_path : Option String)
    (tz : Option String) : Except String DataFrame :=
  match j with
  | .arr xs => pdDataFrameOfList xs
  | .obj kvs =>
    match find_record_path kvs record_path with
    | some rp =>
      if rp = "" then pdDataFrameOfList [Json.obj kvs]
      else
        (jsonNormalize (flatten_meta kvs rp) rp
            ((dlookup kvs rp).getD Json.null).arrElems).map
          (fun df => set_timestamp_index df tz)
    | none => pdDataFrameOfList [Json.obj kvs]
  | _ => .ok emptyFrame

/-- Index name pandas `concat` keeps: the common name when all inputs
agree, `None` otherwise. -/
def concatIndexName : List (Option String) → Option String
  | [] => none
  | n :: rest => if rest.all (· = n) then n else none

/-- pandas `pd.concat(dfs)`: rows stacked in order, columns outer-joined
in order of first appearance, missing cells NaN, indexes concatenated. -/
def pdConcat (dfs : List DataFrame) : DataFrame :=
  let cols := dfs.foldl (fun acc df => colUnion1 acc df.cols) []
  ⟨cols,
   dfs.flatMap (fun df => df.rows.map (fun row =>
     cols.map (fun c => (cellAt df.cols row c).getD Cell.nan))),
   concatIndexName (dfs.map (fun df => df.indexName)),
   dfs.flatMap (fun df => df.index)⟩

/-- HTTP response as the client sees it: status code and parsed JSON
body. -/
structure Response where
  status : Nat
  body : Json

/-- The exceptions the client can raise: `requests.exceptions.HTTPError`
carrying the response status, or a `ValueError` escaping pandas. -/
inductive PyError where
  | http (status : Nat)
  | value (msg : String)

/-- An HTTP request the client issues. -/
structure Request where
  verb : String
  url : String

/-- requests `Response.raise_for_status()`: raises exactly for 4xx client
errors and 5xx server errors. -/
def raisesForStatus (s : Nat) : Bool := 400 ≤ s && s < 600

/-- The class attribute `BASE_URL`. -/
def BASE_URL : String := "https://api.meteo.lt/v1"

/-- The class attribute `TIME_ZONE` (pytz timezone "Europe/Vilnius"),
modelled by its zone name. -/
def TIME_ZONE : String := "Europe/Vilnius"

/-- Shared shape of every endpoint method after the GET:
`raise_for_status()` then `_json_to_dataframe(response.json(), ...)`. -/
def fetchTable (resp : Response) (rp : Option String) (tz : Option String) :
    Except PyError DataFrame :=
  if raisesForStatus resp.status then .error (.http resp.status)
  else (jsonToDataframe resp.body rp tz).mapError PyError.value

/-- Build the single GET request of an endpoint method. -/
def httpGet (url : String) : Request := ⟨"GET", url⟩

/-- MeteoClient.get_places. -/
def get_places (resp : Response) : Request × Except PyError DataFrame :=
  (httpGet (BASE_URL ++ "/places"), fetchTable resp none (some TIME_ZONE))

/-- MeteoClient.get_place_info. -/
def get_place_info (place : String) (resp : Response) :
    Request × Except PyError DataFrame :=
  (httpGet (BASE_URL ++ "/places/" ++ place),
   fetchTable resp none (some TIME_ZONE))

/-- MeteoClient.get_place_forecasts. -/
def get_place_forecasts (place : String) (resp : Response) :
    Request × Except PyError DataFrame :=
  (httpGet (BASE_URL ++ "/places/" ++ place ++ "/forecasts"),
   fetchTable resp none (some TIME_ZONE))

/-- Default of the `forecast_type` parameter. -/
def default_forecast_type : String := "long-term"

/-- MeteoClient.get_place_forecast_by_type. -/
def get_place_forecast_by_type (place ftype : String) (tz : Option String)
    (resp : Response) : Request × Except PyError DataFrame :=
  (httpGet (BASE_URL ++ "/places/" ++ place ++ "/forecasts/" ++ ftype),
   fetchTable resp (some "forecastTimestamps") tz)

/-- MeteoClient.get_stations. -/
def get_stations (resp : Response) : Request × Except PyError DataFrame :=
  (httpGet (BASE_URL ++ "/stations"), fetchTable resp none (some TIME_ZONE))

/-- MeteoClient.get_station_info. -/
def get_station_info (station : String) (resp : Response) :
    Request × Except PyError DataFrame :=
  (httpGet (BASE_URL ++ "/stations/" ++ station),
   fetchTable resp none (some TIME_ZONE))

/-- MeteoClient.get_more_station_info. -/
def get_more_station_info (station : String) (resp : Response) :
    Request × Except PyError DataFrame :=
  (httpGet (BASE_URL ++ "/stations/" ++ station ++ "/observations"),
   fetchTable resp none (some TIME_ZONE))

/-- Default of the `date` parameter. -/
def default_observation_date : String := "latest"

/-- The GET request of a single-date observation call. -/
def obsRequest (station date : String) : Request :=
  httpGet (BASE_URL ++ "/stations/" ++ station ++ "/observations/" ++ date)

/-- MeteoClient.get_station_historical_observations. -/
def get_station_historical_observations (station date : String)
    (tz : Option String) (resp : Response) :
    Request × Except PyError DataFrame :=
  (obsRequest station date, fetchTable resp (some "observations") tz)

/-- Proleptic Gregorian calendar fields (year, month, day) of a Python
date ordinal (`datetime.date.fromordinal`); ordinal 1 is 0001-01-01. -/
def civilFromOrdinal (o : Nat) : Nat × Nat × Nat :=
  let z := o + 305
  let era := z / 146097
  let doe := z % 146097
  let yoe := (doe - doe / 1460 + doe / 36524 - doe / 146096) / 365
  let y := yoe + era * 400
  let doy := doe - (365 * yoe + yoe / 4 - yoe / 100)
  let mp := (5 * doy + 2) / 153
  let d := doy - (153 * mp + 2) / 5 + 1
  let m := if mp < 10 then mp + 3 else mp - 9
  (if m ≤ 2 then y + 1 else y, m, d)

/-- Zero-pad a number to two digits. -/
def pad2 (n : Nat) : String :=
  if n < 10 then "0" ++ toString n else toString n

/-- Zero-pad a number to four digits. -/
def pad4 (n : Nat) : String :=
  if n < 10 then "000" ++ toString n
  else if n < 100 then "00" ++ toString n
  else if n < 1000 then "0" ++ toString n
  else toString n

/-- Python `date.fromordinal(o).isoformat()`. -/
def isoOfOrdinal (o : Nat) : String :=
  let c := civilFromOrdinal o
  pad4 c.1 ++ "-" ++ pad2 c.2.1 ++ "-" ++ pad2 c.2.2

/-- The result part of a single-date observation call, as the range
helper uses it. -/
def obsCall (tz : Option String) (resp : Response) :
    Except PyError DataFrame :=
  fetchTable resp (some "observations") tz

/-- One iteration body of the range loop after the single-date call
returned `res`: a success collects the non-empty frame and continues
with `next` (the loop at the following day); an HTTPError with status
429 sleeps and continues with `same` (the loop at the same day); any
other exception propagates.  `station` and `cur` only name the request
this iteration issued. -/
def obsStep (station : String) (cur : Nat) :
    Except PyError DataFrame →
    Option (List Request × Except PyError (List DataFrame)) →
    Option (List Request × Except PyError (List DataFrame)) →
    Option (List Request × Except PyError (List DataFrame))
  | Except.ok df, next, _ =>
    next.map (fun out => (obsRequest station (isoOfOrdinal cur) :: out.1,
      out.2.map (fun dfs => if df.isEmpty then dfs else df :: dfs)))
  | Except.error (PyError.http s), _, same =>
    if s = 429 then
      same.map (fun out => (obsRequest station (isoOfOrdinal cur) :: out.1,
        out.2))
    else some ([obsRequest station (isoOfOrdinal cur)],
      Except.error (PyError.http s))
  | Except.error (PyError.value m), _, _ =>
    some ([obsRequest station (isoOfOrdinal cur)],
      Except.error (PyError.value m))

/-- While-loop of `get_station_historical_observations_range`, driven by
the list of HTTP responses the consecutive GETs receive.  `cur` and
`endD` are date ordinals.  One response is consumed per iteration; the
outcome of each iteration is `obsStep`.  `none` means the response list
ran out with the loop still running. -/
def obsRangeLoop (station : String) (endD : Nat) (tz : Option String) :
    Nat → List Response →
    Option (List Request × Except PyError (List DataFrame))
  | cur, oracle =>
    if cur > endD then some ([], Except.ok [])
    else
      match oracle with
      | [] => none
      | r :: rest =>
        obsStep station cur (obsCall tz r)
          (obsRangeLoop station endD tz (cur + 1) rest)
          (obsRangeLoop station endD tz cur rest)

/-- MeteoClient.get_station_historical_observations_range: run the loop
from `start_date.date()` to `end_date.date()` and finish with
`pd.concat(all_dfs) if all_dfs else pd.DataFrame()`. -/
def get_station_historical_observations_range (station : String)
    (startD endD : Nat) (tz : Option String) (oracle : List Response) :
    Option (List Request × Except PyError DataFrame) :=
  (obsRangeLoop station endD tz startD oracle).map
    (fun out => (out.1,
      out.2.map (fun dfs => if dfs.isEmpty then emptyFrame else pdConcat dfs)))

/-- The requests session handle stored by `__init__`. -/
structure Session where
  sid : Nat

/-- The client object: `self.session` is its only attribute. -/
structure MeteoClient where
  session : Session

/-- One invocation of a public MeteoClient method, together with the HTTP
responses the environment serves it. -/
inductive ApiCall where
  | places (resp : Response)
  | placeInfo (place : String) (resp : Response)
  | placeForecasts (place : String) (resp : Response)
  | placeForecastByType (place ftype : String) (tz : Option String)
      (resp : Response)
  | stations (resp : Response)
  | stationInfo (station : String) (resp : Response)
  | moreStationInfo (station : String) (resp : Response)
  | stationObs (station date : String) (tz : Option String) (resp : Response)
  | stationObsRange (station : String) (startD endD : Nat)
      (tz : Option String) (oracle : List Response)

/-- Observable outcome of one method call: the requests issued and the
returned table or raised error (`none` when the range loop would still
be running after the supplied responses). -/
structure CallOut where
  requests : List Request
  result : Option (Except PyError DataFrame)

/-- Run one method call against a client.  Translated from the method
bodies: no method assigns any attribute of `self`, so the client record
is returned unchanged. -/
def runCall (c : MeteoClient) : ApiCall → CallOut × MeteoClient
  | .places resp =>
    (⟨[(get_places resp).1], some (get_places resp).2⟩, c)
  | .placeInfo place resp =>
    (⟨[(get_place_info place resp).1], some (get_place_info place resp).2⟩, c)
  | .placeForecasts place resp =>
    (⟨[(get_place_forecasts place resp).1],
      some (get_place_forecasts place resp).2⟩, c)
  | .placeForecastByType place ftype tz resp =>
    (⟨[(get_place_forecast_by_type place ftype tz resp).1],
      some (get_place_forecast_by_type place ftype tz resp).2⟩, c)
  | .stations resp =>
    (⟨[(get_stations resp).1], some (get_stations resp).2⟩, c)
  | .stationInfo station resp =>
    (⟨[(get_station_info station resp).1],
      some (get_station_info station resp).2⟩, c)
  | .moreStationInfo station resp =>
    (⟨[(get_more_station_info station resp).1],
      some (get_more_station_info station resp).2⟩, c)
  | .stationObs station date tz resp =>
    (⟨[(get_station_historical_observations station date tz resp).1],
      some (get_station_historical_observations station date tz resp).2⟩, c)
  | .stationObsRange station startD endD tz oracle =>
    (match get_station_historical_observations_range station startD endD tz
        oracle with
     | some out => ⟨out.1, some out.2⟩
     | none => ⟨[], none⟩, c)

/-- Run a sequence of method calls, threading the client through. -/
def runCalls (c : MeteoClient) : List ApiCall → List CallOut × MeteoClient
  | [] => ([], c)
  | a :: rest =>
    let step := runCall c a
    let more := runCalls step.2 rest
    (step.1 :: more.1, more.2)

/-- A key is a valid requested record path for `_find_record_path`: it
is bound in the dict and its value is a non-empty list whose first
element is a dict. -/
def goodKey (data : List (String × Json)) (r : String) : Prop :=
  ∃ v, dlookup data r = some v ∧ isRecordList v = true

theorem dlookup_mem_pair {l : List (String × Json)} {k : String} {v : Json}
    (h : dlookup l k = some v) : (k, v) ∈ l := by
  induction l with
  | nil => simp [dlookup] at h
  | cons kv rest ih =>
    by_cases hk : kv.1 = k
    · simp only [dlookup, hk, if_pos] at h
      obtain ⟨k0, v0⟩ := kv
      obtain rfl := Option.some.inj h
      simp_all
    · simp only [dlookup, hk, if_neg, not_false_iff] at h
      exact List.mem_cons_of_mem _ (ih h)

theorem dlookup_mem_keys {l : List (String × Json)} {k : String} {v : Json}
    (h : dlookup l k = some v) : k ∈ l.map Prod.fst := by
  exact List.mem_map.mpr ⟨(k, v), dlookup_mem_pair h, rfl⟩

theorem firstGoodKey_eq_none_iff (data : List (String × Json)) :
    firstGoodKey data = none ↔ ∀ kv ∈ data, isRecordList kv.2 = false := by
  induction data with
  | nil => simp [firstGoodKey]
  | cons kv rest ih =>
    cases hg : isRecordList kv.2 with
    | true =>
      constructor
      · intro h
        simp [firstGoodKey, hg] at h
      · intro h
        exact absurd (h kv (by simp)) (by simp [hg])
    | false =>
      constructor
      · intro h kv' hkv'
        rcases List.mem_cons.mp hkv' with rfl | hmem
        · exact hg
        · exact (ih.mp (by simpa [firstGoodKey, hg] using h)) kv' hmem
      · intro h
        have hr : firstGoodKey rest = none :=
          ih.mpr (fun kv' hm => h kv' (List.mem_cons_of_mem _ hm))
        simpa [firstGoodKey, hg] using hr

theorem firstGoodKey_good {data : List (String × Json)} {k : String}
    (hnd : (data.map Prod.fst).Nodup) (h : firstGoodKey data = some k) :
    goodKey data k := by
  induction data with
  | nil => simp [firstGoodKey] at h
  | cons kv rest ih =>
    by_cases hg : isRecordList kv.2
    · simp only [firstGoodKey, hg, if_pos] at h
      obtain rfl := Option.some.inj h
      exact ⟨kv.2, by simp [dlookup], hg⟩
    · simp only [firstGoodKey, hg, if_neg, not_false_iff] at h
      have hnd' : (rest.map Prod.fst).Nodup := (List.nodup_cons.mp hnd).2
      obtain ⟨v, hv, hgood⟩ := ih hnd' h
      refine ⟨v, ?_, hgood⟩
      have hk1 : kv.1 ≠ k := by
        intro hkk
        exact (List.nodup_cons.mp hnd).1 (hkk ▸ dlookup_mem_keys hv)
      simp [dlookup, hk1, hv]

theorem find_record_path_requested (data : List (String × Json))
    (r : String) (hne : r ≠ "") :
    find_record_path data (some r) =
      match dlookup data r with
      | some v => if isRecordList v then some r else firstGoodKey data
      | none => firstGoodKey data := by
  simp [find_record_path, hne]

/-- C1 (amended): for every JSON object with `Nodup` keys (as Python
dicts have) and requested record_path: when the requested path is a
non-empty string, `_find_record_path` returns it exactly when it is a key
whose value is a non-empty list whose first element is an object;
otherwise (no request, an empty-string request — which Python truthiness
treats like None — or an invalid request) it returns the first key with
such a value; and it returns None exactly when no key of the object has
such a value. -/
theorem find_record_path_correct (data : List (String × Json))
    (rp : Option String) (hnd : (data.map Prod.fst).Nodup) :
    (∀ r, rp = some r → r ≠ "" →
      (find_record_path data rp = some r ↔ goodKey data r))
    ∧ ((match rp with
        | none => True
        | some r => r = "" ∨ ¬ goodKey data r) →
        find_record_path data rp = firstGoodKey data)
    ∧ (find_record_path data rp = none ↔
        ∀ kv ∈ data, isRecordList kv.2 = false) := by
  refine ⟨?_, ?_, ?_⟩
  · rintro r rfl hne
    rw [find_record_path_requested data r hne]
    cases hl : dlookup data r with
    | none =>
      constructor
      · intro h
        obtain ⟨v, hv, hgood⟩ := firstGoodKey_good hnd h
        rw [hl] at hv; cases hv
      · rintro ⟨v, hv, hgood⟩
        rw [hl] at hv; cases hv
    | some v =>
      cases hg : isRecordList v with
      | true =>
        constructor
        · intro _
          exact ⟨v, hl, hg⟩
        · intro _
          simp [hg]
      | false =>
        simp only [hg, Bool.false_eq_true, if_false]
        constructor
        · intro h
          obtain ⟨v', hv', hgood⟩ := firstGoodKey_good hnd h
          rw [hl] at hv'
          obtain rfl := Option.some.inj hv'
          rw [hg] at hgood; cases hgood
        · rintro ⟨v', hv', hgood⟩
          rw [hl] at hv'
          obtain rfl := Option.some.inj hv'
          rw [hg] at hgood; cases hgood
  · cases rp with
    | none => exact fun _ => rfl
    | some r =>
      rintro (rfl | hbad)
      · simp [find_record_path]
      · by_cases hne : r = ""
        · simp [find_record_path, hne]
        · rw [find_record_path_requested data r hne]
          cases hl : dlookup data r with
          | none => rfl
          | some v =>
            cases hg : isRecordList v with
            | true => exact absurd ⟨v, hl, hg⟩ hbad
            | false => simp [hg]
  · have hfwd : find_record_path data rp = none →
        firstGoodKey data = none := by
      intro h
      cases rp with
      | none => exact h
      | some r =>
        by_cases hne : r = ""
        · simpa [find_record_path, hne] using h
        · rw [find_record_path_requested data r hne] at h
          cases hl : dlookup data r with
          | none => rw [hl] at h; exact h
          | some v =>
            rw [hl] at h
            have h' : (if isRecordList v = true then (some r : Option String)
                else firstGoodKey data) = none := h
            cases hg : isRecordList v with
            | true => rw [hg] at h'; simp at h'
            | false => rw [hg] at h'; simpa using h'
    constructor
    · intro h
      exact (firstGoodKey_eq_none_iff data).mp (hfwd h)
    · intro h
      have hnone : firstGoodKey data = none :=
        (firstGoodKey_eq_none_iff data).mpr h
      cases rp with
      | none => exact hnone
      | some r =>
        by_cases hne : r = ""
        · simpa [find_record_path, hne] using hnone
        · rw [find_record_path_requested data r hne]
          cases hl : dlookup data r with
          | none => exact hnone
          | some v =>
            have hv : isRecordList v = false := h (r, v) (dlookup_mem_pair hl)
            simp [hv, hnone]

/-- C1 counterexample: with `data = {"a": [{}], "": [{}]}` and requested
record_path `""`, the requested path is a key of the object whose value
is a non-empty list whose first element is an object, yet
`_find_record_path` returns `"a"`, not the requested `""`: the Python
truthiness guard `if record_path and ...` drops an empty-string request. -/
theorem find_record_path_claim_cex :
    find_record_path
        [("a", Json.arr [Json.obj []]), ("", Json.arr [Json.obj []])]
        (some "") = some "a"
    ∧ goodKey [("a", Json.arr [Json.obj []]), ("", Json.arr [Json.obj []])] ""
    ∧ (some "a" : Option String) ≠ some "" := by
  refine ⟨rfl, ⟨Json.arr [Json.obj []], ?_, rfl⟩, by simp⟩
  rfl

/-- Witness for `find_record_path_correct` at a concrete observations
payload. -/
theorem find_record_path_correct_witness :
    (([("obs", Json.arr [Json.obj []])].map Prod.fst).Nodup)
    ∧ (find_record_path [("obs", Json.arr [Json.obj []])] (some "obs")
        = some "obs" ↔
       goodKey [("obs", Json.arr [Json.obj []])] "obs") := by
  refine ⟨by simp, ?_⟩
  exact (find_record_path_correct [("obs", Json.arr [Json.obj []])]
    (some "obs") (by simp)).1 "obs" rfl (by simp)

theorem dictInsert_fresh (d : List (String × Json)) (k : String) (v : Json)
    (h : k ∉ d.map Prod.fst) : dictInsert d k v = d ++ [(k, v)] := by
  have hany : d.any (fun kv => kv.1 = k) = false := by
    by_contra hany
    rw [Bool.not_eq_false, List.any_eq_true] at hany
    obtain ⟨kv, hkv, hk⟩ := hany
    simp only [decide_eq_true_eq] at hk
    exact h (List.mem_map.mpr ⟨kv, hkv, hk⟩)
  simp [dictInsert, hany]

theorem insertMany_fresh (ps : List (String × Json)) :
    ∀ acc : List (String × Json),
    ((acc ++ ps).map Prod.fst).Nodup →
    ps.foldl (fun a p => dictInsert a p.1 p.2) acc = acc ++ ps := by
  induction ps with
  | nil => intro acc _; simp
  | cons p ps ih =>
    intro acc hnd
    have hfresh : p.1 ∉ acc.map Prod.fst := by
      intro hmem
      rw [List.map_append, List.nodup_append] at hnd
      exact hnd.2.2 hmem (by simp)
    have hstep : dictInsert acc p.1 p.2 = acc ++ [p] :=
      dictInsert_fresh acc p.1 p.2 hfresh
    have hnd' : (((acc ++ [p]) ++ ps).map Prod.fst).Nodup := by
      simpa using hnd
    calc (p :: ps).foldl (fun a q => dictInsert a q.1 q.2) acc
        = ps.foldl (fun a q => dictInsert a q.1 q.2) (acc ++ [p]) := by
          simp [hstep]
      _ = (acc ++ [p]) ++ ps := ih (acc ++ [p]) hnd'
      _ = acc ++ (p :: ps) := by simp

theorem metaPairs_cons (kv : String × Json) (rest : List (String × Json))
    (rp : String) :
    metaPairs (kv :: rest) rp =
      (if kv.1 = rp then []
       else
         match kv.2 with
         | Json.obj sub => sub.map (fun p => (kv.1 ++ "_" ++ p.1, p.2))
         | _ => [kv]) ++ metaPairs rest rp := by
  simp [metaPairs]

theorem flattenGo_cons_step (rp k0 : String) (v : Json)
    (acc rest : List (String × Json)) (hrp : ¬ k0 = rp)
    (hscalar : v.isObj = false) :
    flattenGo rp acc ((k0, v) :: rest) =
      flattenGo rp (dictInsert acc k0 v) rest := by
  cases v with
  | obj sub => simp [Json.isObj] at hscalar
  | null => simp [flattenGo, hrp]
  | bool b => simp [flattenGo, hrp]
  | num n => simp [flattenGo, hrp]
  | str s => simp [flattenGo, hrp]
  | arr xs => simp [flattenGo, hrp]

theorem flattenGo_append_scalar (rp : String) (rest : List (String × Json))
    (ih : ∀ acc : List (String × Json),
      ((acc.map Prod.fst) ++ ((metaPairs rest rp).map Prod.fst)).Nodup →
      flattenGo rp acc rest = acc ++ metaPairs rest rp)
    (acc : List (String × Json)) (k0 : String) (v : Json)
    (hrp : ¬ k0 = rp) (hscalar : v.isObj = false)
    (hnd : ((acc.map Prod.fst) ++
      (((k0, v) :: metaPairs rest rp).map Prod.fst)).Nodup) :
    flattenGo rp acc ((k0, v) :: rest) =
      acc ++ ((k0, v) :: metaPairs rest rp) := by
  have hfresh : k0 ∉ acc.map Prod.fst := by
    intro hmem
    rw [List.nodup_append] at hnd
    exact hnd.2.2 hmem (by simp)
  have hnd2 : (((acc ++ [(k0, v)]).map Prod.fst) ++
      ((metaPairs rest rp).map Prod.fst)).Nodup := by
    simpa using hnd
  rw [flattenGo_cons_step rp k0 v acc rest hrp hscalar,
    dictInsert_fresh acc k0 v hfresh, ih (acc ++ [(k0, v)]) hnd2]
  simp

theorem flattenGo_append (rp : String) (rest : List (String × Json)) :
    ∀ acc : List (String × Json),
    ((acc.map Prod.fst) ++ ((metaPairs rest rp).map Prod.fst)).Nodup →
    flattenGo rp acc rest = acc ++ metaPairs rest rp := by
  induction rest with
  | nil => intro acc _; simp [flattenGo, metaPairs]
  | cons kv rest ih =>
    obtain ⟨k0, v0⟩ := kv
    intro acc hnd
    rw [metaPairs_cons] at hnd ⊢
    by_cases hrp : k0 = rp
    · subst hrp
      rw [if_pos rfl] at hnd ⊢
      have hstep : flattenGo k0 acc ((k0, v0) :: rest) =
          flattenGo k0 acc rest := by
        simp [flattenGo]
      rw [hstep, ih acc (by simpa using hnd)]
      simp
    · rw [if_neg hrp] at hnd ⊢
      cases v0 with
      | obj sub =>
        simp only at hnd
        have hnd' : (((acc ++ sub.map
            (fun p => (k0 ++ "_" ++ p.1, p.2))).map Prod.fst) ++
            ((metaPairs rest rp).map Prod.fst)).Nodup := by
          rw [List.map_append]
          rw [List.map_append, ← List.append_assoc] at hnd
          exact hnd
        have hfold : sub.foldl
            (fun a p => dictInsert a (k0 ++ "_" ++ p.1) p.2) acc =
            acc ++ sub.map (fun p => (k0 ++ "_" ++ p.1, p.2)) := by
          rw [← List.foldl_map (fun p => (k0 ++ "_" ++ p.1, p.2))
            (fun a q => dictInsert a q.1 q.2) sub acc]
          refine insertMany_fresh _ acc ?_
          refine hnd'.sublist ?_
          rw [List.map_append]
          exact List.sublist_append_left _ _
        calc flattenGo rp acc ((k0, Json.obj sub) :: rest)
            = flattenGo rp (acc ++ sub.map
                (fun p => (k0 ++ "_" ++ p.1, p.2))) rest := by
              simp [flattenGo, hrp, hfold]
          _ = (acc ++ sub.map (fun p => (k0 ++ "_" ++ p.1, p.2))) ++
                metaPairs rest rp := ih _ hnd'
          _ = acc ++ (sub.map (fun p => (k0 ++ "_" ++ p.1, p.2)) ++
                metaPairs rest rp) := by simp
      | null =>
        exact flattenGo_append_scalar rp rest ih acc k0 Json.null hrp rfl
          (by simpa using hnd)
      | bool b =>
        exact flattenGo_append_scalar rp rest ih acc k0 (Json.bool b) hrp rfl
          (by simpa using hnd)
      | num n =>
        exact flattenGo_append_scalar rp rest ih acc k0 (Json.num n) hrp rfl
          (by simpa using hnd)
      | str s =>
        exact flattenGo_append_scalar rp rest ih acc k0 (Json.str s) hrp rfl
          (by simpa using hnd)
      | arr xs =>
        exact flattenGo_append_scalar rp rest ih acc k0 (Json.arr xs) hrp rfl
          (by simpa using hnd)

theorem flatten_meta_eq_metaPairs (data : List (String × Json)) (rp : String)
    (hnames : ((metaPairs data rp).map Prod.fst).Nodup) :
    flatten_meta data rp = metaPairs data rp := by
  have h := flattenGo_append rp data [] (by simpa using hnames)
  simpa [flatten_meta] using h

theorem colIdx_append_right (as bs : List String) (k : String)
    (h : k ∉ as) :
    colIdx (as ++ bs) k = (colIdx bs k).map (· + as.length) := by
  induction as with
  | nil =>
    cases hc : colIdx bs k <;> simp [hc]
  | cons a as ih =>
    have ha : ¬ a = k := fun hak => h (hak ▸ List.mem_cons_self a as)
    have h' : k ∉ as := fun hm => h (List.mem_cons_of_mem a hm)
    rw [List.cons_append]
    show (if a = k then some 0 else (colIdx (as ++ bs) k).map (· + 1)) = _
    rw [if_neg ha, ih h']
    cases hc : colIdx bs k with
    | none => simp
    | some i =>
      simp [List.length_cons]
      omega

theorem colIdx_lookup_nodup (l : List (String × Json)) (k : String)
    (v : Json) (hnd : (l.map Prod.fst).Nodup) (hmem : (k, v) ∈ l) :
    ∃ i, colIdx (l.map Prod.fst) k = some i ∧ l[i]? = some (k, v) := by
  induction l with
  | nil => cases hmem
  | cons p rest ih =>
    by_cases hk : p.1 = k
    · have hp : p = (k, v) := by
        rcases List.mem_cons.mp hmem with h | h
        · exact h.symm
        · exfalso
          have : k ∈ rest.map Prod.fst :=
            List.mem_map.mpr ⟨(k, v), h, rfl⟩
          exact (List.nodup_cons.mp hnd).1 (hk ▸ this)
      refine ⟨0, ?_, by simp [hp]⟩
      show (if p.1 = k then some 0
        else (colIdx (rest.map Prod.fst) k).map (· + 1)) = some 0
      rw [if_pos hk]
    · have hm : (k, v) ∈ rest := by
        rcases List.mem_cons.mp hmem with h | h
        · exact absurd (by rw [← h]) hk
        · exact h
      obtain ⟨i, hi, hget⟩ := ih (List.nodup_cons.mp hnd).2 hm
      refine ⟨i + 1, ?_, by simpa using hget⟩
      show (if p.1 = k then some 0
        else (colIdx (rest.map Prod.fst) k).map (· + 1)) = some (i + 1)
      rw [if_neg hk, hi]
      rfl

/-- C2 (amended): for every JSON object whose flattened metadata names
are pairwise distinct and avoid the record path name, `_flatten_meta`
returns exactly the described mapping — for every top-level key other
than rp, one entry `key_subkey` per subkey of a dict value, one entry
under the key itself otherwise, and nothing else — and whenever the
subsequent `json_normalize` call succeeds, every flattened metadata
entry is attached under its name to every record row of the normalized
table (the timestamp-indexing step may afterwards move one column into
the index).  Without the distinctness condition dict assignment
overwrites colliding names. -/
theorem flatten_meta_correct (data : List (String × Json)) (rp : String)
    (hnames : ((metaPairs data rp).map Prod.fst).Nodup)
    (hrpfree : ∀ kv ∈ metaPairs data rp, kv.1 ≠ rp) :
    flatten_meta data rp = metaPairs data rp
    ∧ ∀ records df,
        jsonNormalize (flatten_meta data rp) rp records = Except.ok df →
        ∀ row ∈ df.rows, ∀ kv ∈ flatten_meta data rp,
          cellAt df.cols row kv.1 = some (Cell.jv kv.2) := by
  have heq := flatten_meta_eq_metaPairs data rp hnames
  refine ⟨heq, ?_⟩
  intro records df hnorm row hrow kv hkv
  rw [heq] at hnorm hkv
  rw [jsonNormalize] at hnorm
  by_cases hall : records.all Json.isObj = true
  · rw [if_pos hall] at hnorm
    by_cases hconf : (metaPairs data rp).any
        (fun kv => (normRecCols records).contains kv.1) = true
    · rw [if_pos hconf] at hnorm
      cases hnorm
    · rw [if_neg hconf] at hnorm
      obtain rfl := (Except.ok.inj hnorm).symm
      simp only at hrow
      obtain ⟨fr, _, rfl⟩ := List.mem_map.mp hrow
      obtain ⟨k, v⟩ := kv
      have hconf' : (metaPairs data rp).any
          (fun kv => (normRecCols records).contains kv.1) = false :=
        Bool.eq_false_iff.mpr hconf
      have hknotrec : k ∉ normRecCols records := by
        have hc2 := List.any_eq_false.mp hconf' (k, v) hkv
        simpa using hc2
      obtain ⟨i, hi, hget⟩ :=
        colIdx_lookup_nodup (metaPairs data rp) k v hnames hkv
      have hkne : k ≠ rp := hrpfree (k, v) hkv
      have hlen : ((normRecCols records).map (fun c =>
          match dlookup fr c with
          | some w => Cell.jv w
          | none => Cell.nan)).length = (normRecCols records).length := by
        simp
      rw [cellAt]
      simp only
      rw [colIdx_append_right _ _ _ hknotrec, hi]
      simp only [Option.map_some', Option.some_bind]
      rw [normRow]
      rw [List.getElem?_append_right (by omega)]
      rw [hlen]
      simp only [Nat.add_sub_cancel]
      rw [normMetaCells, List.getElem?_map, hget]
      simp [hkne]
  · rw [if_neg hall] at hnorm
    cases hnorm

/-- C2 counterexample: with the object
`{"a_b": 1, "a": {"b": 2}, "rec": [{}]}` and record path `"rec"`, the
claim asks the mapping to contain the entry `"a_b" : 1` for the
top-level key `"a_b"` and the entry `"a_b" : 2` for the subkey `b` of
`"a"`; the dict assignment in `_flatten_meta` overwrites, so the result
is `{"a_b": 2}` and the entry carrying 1 is absent. -/
theorem flatten_meta_claim_cex :
    flatten_meta [("a_b", Json.num 1), ("a", Json.obj [("b", Json.num 2)]),
        ("rec", Json.arr [Json.obj []])] "rec"
      = [("a_b", Json.num 2)]
    ∧ ("a_b", Json.num 1) ∉
        flatten_meta [("a_b", Json.num 1), ("a", Json.obj [("b", Json.num 2)]),
          ("rec", Json.arr [Json.obj []])] "rec" := by
  have h : flatten_meta [("a_b", Json.num 1),
      ("a", Json.obj [("b", Json.num 2)]),
      ("rec", Json.arr [Json.obj []])] "rec" = [("a_b", Json.num 2)] := rfl
  refine ⟨h, ?_⟩
  rw [h]
  simp

/-- Witness for `flatten_meta_correct` at a concrete station payload. -/
theorem flatten_meta_correct_witness :
    ((metaPairs [("place", Json.obj [("code", Json.str "vln")]),
        ("obs", Json.arr [Json.obj [("x", Json.num 1)]])] "obs").map
        Prod.fst).Nodup
    ∧ (∀ kv ∈ metaPairs [("place", Json.obj [("code", Json.str "vln")]),
        ("obs", Json.arr [Json.obj [("x", Json.num 1)]])] "obs",
        kv.1 ≠ "obs")
    ∧ cellAt ["x", "place_code"]
        [Cell.jv (Json.num 1), Cell.jv (Json.str "vln")] "place_code"
      = some (Cell.jv (Json.str "vln")) := by
  refine ⟨by decide, by decide, ?_⟩
  have h := (flatten_meta_correct
    [("place", Json.obj [("code", Json.str "vln")]),
     ("obs", Json.arr [Json.obj [("x", Json.num 1)]])] "obs"
    (by decide) (by decide)).2
    [Json.obj [("x", Json.num 1)]]
    ⟨["x", "place_code"],
     [[Cell.jv (Json.num 1), Cell.jv (Json.str "vln")]], none,
     defaultIndex 1⟩ (by rfl)
  have hm : ("place_code", Json.str "vln") ∈
      flatten_meta [("place", Json.obj [("code", Json.str "vln")]),
        ("obs", Json.arr [Json.obj [("x", Json.num 1)]])] "obs" := by
    rw [show flatten_meta [("place", Json.obj [("code", Json.str "vln")]),
        ("obs", Json.arr [Json.obj [("x", Json.num 1)]])] "obs"
      = [("place_code", Json.str "vln")] from rfl]
    simp
  exact h [Cell.jv (Json.num 1), Cell.jv (Json.str "vln")] (by simp)
    ("place_code", Json.str "vln") hm

theorem cellLe_trans (a b c : Cell) (hab : cellLe a b = true)
    (hbc : cellLe b c = true) : cellLe a c = true := by
  simp only [cellLe, Bool.or_eq_true, Bool.and_eq_true,
    decide_eq_true_eq] at hab hbc ⊢
  omega

theorem cellLe_total (a b : Cell) : (cellLe a b || cellLe b a) = true := by
  simp only [cellLe, Bool.or_eq_true, Bool.and_eq_true,
    decide_eq_true_eq]
  omega

theorem convCell_tzOk (tz : Option String) (c : Cell)
    (hraw : rawCell c = true) : tzOkCell tz (convCell tz c) := by
  cases c with
  | dt t z => simp [rawCell] at hraw
  | naT =>
    cases tz <;>
      simp [convCell, toDatetimeCell, tzLocalizeUTC, tzConvertTo, tzOkCell]
  | nan =>
    cases tz <;>
      simp [convCell, toDatetimeCell, tzLocalizeUTC, tzConvertTo, tzOkCell]
  | jv j =>
    cases j with
    | str s =>
      cases hp : parseDt s with
      | none =>
        cases tz <;>
          simp [convCell, toDatetimeCell, hp, tzLocalizeUTC, tzConvertTo,
            tzOkCell]
      | some t =>
        cases tz <;>
          simp [convCell, toDatetimeCell, hp, tzLocalizeUTC, tzConvertTo,
            tzOkCell, tzName]
    | null =>
      cases tz <;>
        simp [convCell, toDatetimeCell, tzLocalizeUTC, tzConvertTo, tzOkCell]
    | bool b =>
      cases tz <;>
        simp [convCell, toDatetimeCell, tzLocalizeUTC, tzConvertTo, tzOkCell]
    | num n =>
      cases tz <;>
        simp [convCell, toDatetimeCell, tzLocalizeUTC, tzConvertTo, tzOkCell]
    | arr xs =>
      cases tz <;>
        simp [convCell, toDatetimeCell, tzLocalizeUTC, tzConvertTo, tzOkCell]
    | obj kvs =>
      cases tz <;>
        simp [convCell, toDatetimeCell, tzLocalizeUTC, tzConvertTo, tzOkCell]

theorem colIdx_getElem {l : List String} {k : String} {j : Nat}
    (h : colIdx l k = some j) : l[j]? = some k := by
  induction l generalizing j with
  | nil => simp [colIdx] at h
  | cons c rest ih =>
    have h' : (if c = k then some 0
        else (colIdx rest k).map (· + 1)) = some j := h
    by_cases hc : c = k
    · rw [if_pos hc] at h'
      obtain rfl := (Option.some.inj h').symm
      simp [hc]
    · rw [if_neg hc] at h'
      cases hcol : colIdx rest k with
      | none => rw [hcol] at h'; simp at h'
      | some i =>
        rw [hcol] at h'
        obtain rfl := (Option.some.inj h').symm
        simpa using ih hcol

theorem colIdx_isSome_of_mem {l : List String} {k : String} (h : k ∈ l) :
    ∃ j, colIdx l k = some j := by
  induction l with
  | nil => cases h
  | cons c rest ih =>
    by_cases hc : c = k
    · refine ⟨0, ?_⟩
      show (if c = k then some 0 else (colIdx rest k).map (· + 1)) = some 0
      rw [if_pos hc]
    · rcases List.mem_cons.mp h with rfl | hm
      · exact absurd rfl hc
      · obtain ⟨i, hi⟩ := ih hm
        refine ⟨i + 1, ?_⟩
        show (if c = k then some 0 else (colIdx rest k).map (· + 1)) =
          some (i + 1)
        rw [if_neg hc, hi]
        rfl

theorem convRow_getElem (tz : Option String) (cols : List String)
    (row : List Cell) (p : Nat) (c : String) (x : Cell)
    (hc : cols[p]? = some c) (hx : row[p]? = some x) :
    (convRow tz cols row)[p]? =
      some (if isTimeCol c then convCell tz x else x) := by
  induction cols generalizing row p with
  | nil => simp at hc
  | cons c0 cols ih =>
    cases row with
    | nil => simp at hx
    | cons x0 row =>
      cases p with
      | zero =>
        obtain rfl := Option.some.inj (by simpa using hc)
        obtain rfl := Option.some.inj (by simpa using hx)
        simp [convRow]
      | succ p =>
        simp only [List.getElem?_cons_succ] at hc hx
        have hrec := ih row p hc hx
        simpa [convRow] using hrec

theorem stiSorted_mem {df : DataFrame} {tz : Option String} {i : Nat}
    {pr : Cell × List Cell} (h : pr ∈ stiSorted df tz i) :
    ∃ row ∈ df.rows,
      pr = (((convRow tz df.cols row)[i]?).getD Cell.nan,
        (convRow tz df.cols row).eraseIdx i) := by
  rw [stiSorted, List.mem_mergeSort, stiPairs] at h
  obtain ⟨row1, hrow1, rfl⟩ := List.mem_map.mp h
  obtain ⟨row0, hrow0, rfl⟩ := List.mem_map.mp hrow1
  exact ⟨row0, hrow0, rfl⟩

theorem set_timestamp_index_eq (df : DataFrame) (tz : Option String)
    (t0 : String) (ts : List String)
    (ht : df.cols.filter isTimeCol = t0 :: ts) :
    set_timestamp_index df tz =
      ⟨df.cols.eraseIdx (stiIndexPos df t0),
       (stiSorted df tz (stiIndexPos df t0)).map Prod.snd,
       some "timestamp",
       (stiSorted df tz (stiIndexPos df t0)).map Prod.fst⟩ := by
  unfold set_timestamp_index
  rw [ht]

/-- Index cell produced for one raw row: the converted cell of the first
timestamp column. -/
theorem sti_index_cell (df : DataFrame) (tz : Option String) (t0 : String)
    (ts : List String) (ht : df.cols.filter isTimeCol = t0 :: ts)
    (hwf : ∀ r ∈ df.rows, r.length = df.cols.length)
    (row0 : List Cell) (hrow0 : row0 ∈ df.rows) :
    ∃ x0, row0[stiIndexPos df t0]? = some x0 ∧
      (convRow tz df.cols row0)[stiIndexPos df t0]? =
        some (convCell tz x0) := by
  have hmem : t0 ∈ df.cols.filter isTimeCol := by
    rw [ht]; exact List.mem_cons_self t0 ts
  have ht0time : isTimeCol t0 = true := List.of_mem_filter hmem
  obtain ⟨i0, hi0⟩ := colIdx_isSome_of_mem (List.mem_of_mem_filter hmem)
  have hpos : stiIndexPos df t0 = i0 := by simp [stiIndexPos, hi0]
  have hcols : df.cols[i0]? = some t0 := colIdx_getElem hi0
  have hlt : i0 < df.cols.length := (List.getElem?_eq_some_iff.mp hcols).1
  have hlt' : i0 < row0.length := by rw [hwf row0 hrow0]; exact hlt
  obtain ⟨x0, hx0⟩ : ∃ x0, row0[i0]? = some x0 :=
    ⟨row0[i0], List.getElem?_eq_some_iff.mpr ⟨hlt', rfl⟩⟩
  refine ⟨x0, by rw [hpos]; exact hx0, ?_⟩
  rw [hpos]
  rw [convRow_getElem tz df.cols row0 i0 t0 x0 hcols hx0]
  simp [ht0time]

/-- C3 (amended): whenever `_set_timestamp_index` receives a well-formed
frame of unconverted cells that has at least one column ending in
"TimeUtc", the result is indexed by an index named "timestamp", sorted
ascending; every index cell and every cell of a remaining "TimeUtc"
column is a timezone-aware datetime tagged UTC (or the requested
timezone when one is given) or NaT for unparseable values; the first
"TimeUtc" column is removed from the columns and its converted cells
form the index; and whenever `_find_record_path` finds a non-empty
record path, `_json_to_dataframe` routes the normalized frame through
exactly this step (an empty-string record path is falsy under `if rp:`
and falls back to the single-row branch).  Without a "TimeUtc" column
the frame is returned unchanged, and list-shaped responses never reach
this step. -/
theorem set_timestamp_index_correct (df : DataFrame) (tz : Option String)
    (hwf : ∀ r ∈ df.rows, r.length = df.cols.length)
    (hraw : ∀ r ∈ df.rows, ∀ c ∈ r, rawCell c = true)
    (t0 : String) (ts : List String)
    (ht : df.cols.filter isTimeCol = t0 :: ts) :
    (set_timestamp_index df tz).indexName = some "timestamp"
    ∧ List.Pairwise (fun a b => cellLe a b = true)
        (set_timestamp_index df tz).index
    ∧ (∀ c ∈ (set_timestamp_index df tz).index, tzOkCell tz c)
    ∧ (∀ (j : Nat) (c : String),
        (set_timestamp_index df tz).cols[j]? = some c →
        isTimeCol c = true →
        ∀ row ∈ (set_timestamp_index df tz).rows, ∀ (x : Cell),
          row[j]? = some x → tzOkCell tz x)
    ∧ (set_timestamp_index df tz).cols =
        df.cols.eraseIdx (stiIndexPos df t0)
    ∧ (set_timestamp_index df tz).index.Perm
        (df.rows.map (fun row =>
          convCell tz ((row[stiIndexPos df t0]?).getD Cell.nan)))
    ∧ (∀ kvs rp0 rp tzx, find_record_path kvs rp0 = some rp → rp ≠ "" →
        jsonToDataframe (Json.obj kvs) rp0 tzx =
          (jsonNormalize (flatten_meta kvs rp) rp
            ((dlookup kvs rp).getD Json.null).arrElems).map
            (fun d => set_timestamp_index d tzx)) := by
  have heq := set_timestamp_index_eq df tz t0 ts ht
  refine ⟨by rw [heq], ?_, ?_, ?_, by rw [heq], ?_, ?_⟩
  · rw [heq]
    simp only
    have hsorted := @List.sorted_mergeSort (Cell × List Cell)
      (fun a b => cellLe a.1 b.1)
      (fun a b c hab hbc => cellLe_trans a.1 b.1 c.1 hab hbc)
      (fun a b => cellLe_total a.1 b.1)
      (stiPairs df tz (stiIndexPos df t0))
    rw [stiSorted]
    exact List.Pairwise.map Prod.fst (fun a b h => h) hsorted
  · rw [heq]
    simp only
    intro c hc
    obtain ⟨pr, hpr, rfl⟩ := List.mem_map.mp hc
    obtain ⟨row0, hrow0, rfl⟩ := stiSorted_mem hpr
    obtain ⟨x0, hx0, hconv⟩ :=
      sti_index_cell df tz t0 ts ht hwf row0 hrow0
    rw [hconv]
    simp only [Option.getD_some]
    exact convCell_tzOk tz x0
      (hraw row0 hrow0 x0 (List.getElem?_mem hx0))
  · rw [heq]
    simp only
    intro j c hcol htime row hrow x hx
    obtain ⟨pr, hpr, rfl⟩ := List.mem_map.mp hrow
    obtain ⟨row0, hrow0, rfl⟩ := stiSorted_mem hpr
    rw [List.getElem?_eraseIdx] at hcol hx
    by_cases hj : j < stiIndexPos df t0
    · rw [if_pos hj] at hcol hx
      have hltp : j < df.cols.length :=
        (List.getElem?_eq_some_iff.mp hcol).1
      have hltp' : j < row0.length := by rw [hwf row0 hrow0]; exact hltp
      obtain ⟨x0, hx0⟩ : ∃ x0, row0[j]? = some x0 :=
        ⟨row0[j], List.getElem?_eq_some_iff.mpr ⟨hltp', rfl⟩⟩
      have := convRow_getElem tz df.cols row0 j c x0 hcol hx0
      rw [this] at hx
      obtain rfl := Option.some.inj hx
      rw [if_pos htime]
      exact convCell_tzOk tz x0
        (hraw row0 hrow0 x0 (List.getElem?_mem hx0))
    · rw [if_neg hj] at hcol hx
      have hltp : j + 1 < df.cols.length :=
        (List.getElem?_eq_some_iff.mp hcol).1
      have hltp' : j + 1 < row0.length := by rw [hwf row0 hrow0]; exact hltp
      obtain ⟨x0, hx0⟩ : ∃ x0, row0[j + 1]? = some x0 :=
        ⟨row0[j + 1], List.getElem?_eq_some_iff.mpr ⟨hltp', rfl⟩⟩
      have := convRow_getElem tz df.cols row0 (j + 1) c x0 hcol hx0
      rw [this] at hx
      obtain rfl := Option.some.inj hx
      rw [if_pos htime]
      exact convCell_tzOk tz x0
        (hraw row0 hrow0 x0 (List.getElem?_mem hx0))
  · rw [heq]
    simp only
    have hperm : (stiSorted df tz (stiIndexPos df t0)).Perm
        (stiPairs df tz (stiIndexPos df t0)) :=
      List.mergeSort_perm _ _
    refine (hperm.map Prod.fst).trans ?_
    rw [stiPairs, List.map_map, List.map_map]
    have heqmap : df.rows.map
        ((Prod.fst ∘ fun row => ((row[stiIndexPos df t0]?).getD Cell.nan,
          row.eraseIdx (stiIndexPos df t0))) ∘ convRow tz df.cols) =
        df.rows.map (fun row =>
          convCell tz ((row[stiIndexPos df t0]?).getD Cell.nan)) := by
      refine List.map_congr_left ?_
      intro row0 hrow0
      obtain ⟨x0, hx0, hconv⟩ :=
        sti_index_cell df tz t0 ts ht hwf row0 hrow0
      simp only [Function.comp]
      rw [hconv, hx0]
      simp
    rw [heqmap]
  · intro kvs rp0 rp tzx hfind hne
    simp [jsonToDataframe, hfind, hne]

/-- C3 counterexample: the parsed response `{"k": [{"a": 1}]}` takes the
record-path branch but has no column ending in "TimeUtc", so
`_set_timestamp_index` returns the frame unchanged: the resulting table
has no index named "timestamp" (the claim asserts every parsed response
is returned with a timezone-aware "timestamp" index). -/
theorem set_timestamp_index_claim_cex :
    (jsonToDataframe (Json.obj [("k", Json.arr [Json.obj [("a", Json.num 1)]])])
        none (some TIME_ZONE)).map DataFrame.indexName
      = Except.ok none
    ∧ ((Except.ok (none : Option String) : Except String (Option String))
        ≠ Except.ok (some "timestamp")) := by
  exact ⟨rfl, by simp⟩

/-- Witness for `set_timestamp_index_correct` at a concrete single-column
frame. -/
theorem set_timestamp_index_correct_witness :
    (∀ r ∈ [[Cell.jv (Json.str "nope")]], r.length = (["xTimeUtc"] : List String).length)
    ∧ (∀ r ∈ [[Cell.jv (Json.str "nope")]], ∀ c ∈ r, rawCell c = true)
    ∧ ((["xTimeUtc"] : List String).filter isTimeCol = ["xTimeUtc"])
    ∧ (set_timestamp_index
        ⟨["xTimeUtc"], [[Cell.jv (Json.str "nope")]], none,
          [Cell.jv (Json.num 0)]⟩ (some TIME_ZONE)).indexName
      = some "timestamp" := by
  refine ⟨by decide, by decide, by rfl, ?_⟩
  exact (set_timestamp_index_correct
    ⟨["xTimeUtc"], [[Cell.jv (Json.str "nope")]], none,
      [Cell.jv (Json.num 0)]⟩ (some TIME_ZONE)
    (by decide) (by decide) "xTimeUtc" [] (by rfl)).1

theorem dlookup_self_nodup {l : List (String × Json)}
    (hnd : (l.map Prod.fst).Nodup) {kv : String × Json} (hmem : kv ∈ l) :
    dlookup l kv.1 = some kv.2 := by
  induction l with
  | nil => cases hmem
  | cons p rest ih =>
    rcases List.mem_cons.mp hmem with rfl | hm
    · show (if kv.1 = kv.1 then some kv.2 else dlookup rest kv.1) = some kv.2
      rw [if_pos rfl]
    · have hne : ¬ p.1 = kv.1 := by
        intro hp
        have : kv.1 ∈ rest.map Prod.fst := List.mem_map.mpr ⟨kv, hm, rfl⟩
        exact (List.nodup_cons.mp hnd).1 (hp ▸ this)
      show (if p.1 = kv.1 then some p.2 else dlookup rest kv.1) = some kv.2
      rw [if_neg hne]
      exact ih (List.nodup_cons.mp hnd).2 hm

theorem colUnion1_fresh (ks : List String) :
    ∀ acc : List String, (acc ++ ks).Nodup → colUnion1 acc ks = acc ++ ks := by
  induction ks with
  | nil => intro acc _; simp [colUnion1]
  | cons k ks ih =>
    intro acc hnd
    have hknot : k ∉ acc := by
      intro hmem
      rw [List.nodup_append] at hnd
      exact hnd.2.2 hmem (by simp)
    have hstep : colUnion1 acc (k :: ks) = colUnion1 (acc ++ [k]) ks := by
      simp [colUnion1, hknot]
    rw [hstep, ih (acc ++ [k]) (by simpa using hnd)]
    simp

theorem find_record_path_none (data : List (String × Json))
    (rp : Option String)
    (h : ∀ kv ∈ data, isRecordList kv.2 = false) :
    find_record_path data rp = none := by
  have hnone : firstGoodKey data = none :=
    (firstGoodKey_eq_none_iff data).mpr h
  cases rp with
  | none => exact hnone
  | some r =>
    by_cases hne : r = ""
    · simpa [find_record_path, hne] using hnone
    · rw [find_record_path_requested data r hne]
      cases hl : dlookup data r with
      | none => exact hnone
      | some v =>
        have hv : isRecordList v = false := h (r, v) (dlookup_mem_pair hl)
        simp [hv, hnone]

/-- C9 (amended): `_json_to_dataframe` is defined for every JSON value
except where the pandas machinery raises on shape: a JSON array whose
elements satisfy the DataFrame constructor's shape condition yields a
table with one row per element; a JSON object in which no key holds a
non-empty list whose first element is an object yields a single-row
table of that object; any other JSON value (string, number, boolean,
null) yields an empty table.  The record-path branch can raise a
ValueError when a flattened metadata name collides with a record column
or when the records are not all objects, and the array branch can raise
when records mix dicts (or lists) with other values. -/
theorem json_to_dataframe_shapes :
    (∀ (xs : List Json) (rp tz : Option String), listShapeOk xs = true →
      ∃ df, jsonToDataframe (Json.arr xs) rp tz = Except.ok df ∧
        df.rows.length = xs.length)
    ∧ (∀ (kvs : List (String × Json)) (rp tz : Option String),
        (∀ kv ∈ kvs, isRecordList kv.2 = false) →
        ∃ df, jsonToDataframe (Json.obj kvs) rp tz = Except.ok df ∧
          df.rows.length = 1 ∧
          ((kvs.map Prod.fst).Nodup →
            df.cols = kvs.map Prod.fst ∧
            df.rows = [kvs.map (fun kv => Cell.jv kv.2)]))
    ∧ (∀ rp tz : Option String,
        jsonToDataframe Json.null rp tz = Except.ok emptyFrame
        ∧ (∀ b, jsonToDataframe (Json.bool b) rp tz = Except.ok emptyFrame)
        ∧ (∀ n, jsonToDataframe (Json.num n) rp tz = Except.ok emptyFrame)
        ∧ (∀ s, jsonToDataframe (Json.str s) rp tz = Except.ok emptyFrame)) := by
  refine ⟨?_, ?_, ?_⟩
  · intro xs rp tz hshape
    have hjd : jsonToDataframe (Json.arr xs) rp tz = pdDataFrameOfList xs :=
      rfl
    rw [hjd]
    cases xs with
    | nil => exact ⟨emptyFrame, rfl, rfl⟩
    | cons x rest =>
      by_cases hobj : x.isObj = true
      · have hall : (x :: rest).all Json.isObj = true := by
          simpa [listShapeOk, hobj] using hshape
        refine ⟨⟨colUnion ((x :: rest).map Json.objKVs),
          recordRows ((x :: rest).map Json.objKVs)
            (colUnion ((x :: rest).map Json.objKVs)),
          none, defaultIndex (x :: rest).length⟩, ?_, ?_⟩
        · simp [pdDataFrameOfList, hobj, hall]
        · simp [recordRows]
      · by_cases harr : x.isArr = true
        · have hall : (x :: rest).all Json.isArr = true := by
            simpa [listShapeOk, hobj, harr] using hshape
          refine ⟨⟨(List.range (maxLen ((x :: rest).map Json.arrElems))).map
              (fun i => toString i),
            ((x :: rest).map Json.arrElems).map
              (fun r => padRow r (maxLen ((x :: rest).map Json.arrElems))),
            none, defaultIndex (x :: rest).length⟩, ?_, ?_⟩
          · simp [pdDataFrameOfList, hobj, harr, hall]
          · simp
        · refine ⟨⟨["0"], (x :: rest).map (fun j => [Cell.jv j]), none,
            defaultIndex (x :: rest).length⟩, ?_, ?_⟩
          · simp [pdDataFrameOfList, hobj, harr]
          · simp
  · intro kvs rp tz hng
    have hfind : find_record_path kvs rp = none :=
      find_record_path_none kvs rp hng
    have hjd : jsonToDataframe (Json.obj kvs) rp tz =
        pdDataFrameOfList [Json.obj kvs] := by
      simp [jsonToDataframe, hfind]
    have hcols : colUnion [(Json.obj kvs).objKVs] = colUnion [kvs] := rfl
    refine ⟨⟨colUnion [kvs], recordRows [kvs] (colUnion [kvs]), none,
      defaultIndex 1⟩, ?_, by simp [recordRows], ?_⟩
    · rw [hjd]
      simp [pdDataFrameOfList, Json.isObj, Json.objKVs]
    · intro hnd
      have hcu : colUnion [kvs] = kvs.map Prod.fst := by
        have h1 : colUnion [kvs] = colUnion1 [] (kvs.map Prod.fst) := by
          simp [colUnion]
        rw [h1, colUnion1_fresh (kvs.map Prod.fst) [] (by simpa using hnd)]
        simp
      refine ⟨hcu, ?_⟩
      rw [recordRows, hcu]
      simp only [List.map_cons, List.map_nil]
      congr 1
      rw [List.map_map]
      refine List.map_congr_left ?_
      intro kv hkv
      simp only [Function.comp]
      rw [dlookup_self_nodup hnd hkv]
  · intro rp tz
    exact ⟨rfl, fun b => rfl, fun n => rfl, fun s => rfl⟩

/-- C9 counterexample: the JSON object `{"k": [{"m": 1}], "m": 2}` fails
on shape alone: the flattened metadata name "m" collides with the record
column "m", and `json_normalize` raises
`ValueError("Conflicting metadata name m, need distinguishing prefix")`,
so `_json_to_dataframe` raises instead of returning a table. -/
theorem json_to_dataframe_claim_cex :
    jsonToDataframe
        (Json.obj [("k", Json.arr [Json.obj [("m", Json.num 1)]]),
          ("m", Json.num 2)]) none none
      = Except.error "Conflicting metadata name" := by
  rfl

/-- Witness for `json_to_dataframe_shapes` at a concrete two-element
array. -/
theorem json_to_dataframe_shapes_witness :
    listShapeOk [Json.num 1, Json.num 2] = true
    ∧ ∃ df, jsonToDataframe (Json.arr [Json.num 1, Json.num 2]) none none
        = Except.ok df ∧ df.rows.length = [Json.num 1, Json.num 2].length := by
  refine ⟨by decide, ?_⟩
  exact json_to_dataframe_shapes.1 [Json.num 1, Json.num 2] none none
    (by decide)

theorem obsRangeLoop_nil_eq (station : String) (endD : Nat)
    (tz : Option String) (cur : Nat) :
    obsRangeLoop station endD tz cur [] =
      if cur > endD then some ([], Except.ok []) else none := rfl

theorem obsRangeLoop_cons_eq (station : String) (endD : Nat)
    (tz : Option String) (cur : Nat) (r : Response) (rest : List Response) :
    obsRangeLoop station endD tz cur (r :: rest) =
      if cur > endD then some ([], Except.ok [])
      else
        obsStep station cur (obsCall tz r)
          (obsRangeLoop station endD tz (cur + 1) rest)
          (obsRangeLoop station endD tz cur rest) := rfl

theorem obsRangeLoop_inv (station : String) (endD : Nat)
    (tz : Option String) :
    ∀ (oracle : List Response) (cur : Nat) (calls : List Request)
      (dfs : List DataFrame),
    obsRangeLoop station endD tz cur oracle =
      some (calls, Except.ok dfs) →
    (∃ ords : List Nat,
      calls = ords.map (fun d => obsRequest station (isoOfOrdinal d))
      ∧ List.Pairwise (fun a b => a ≤ b) ords
      ∧ (∀ d, cur ≤ d → d ≤ endD → d ∈ ords)
      ∧ (∀ d ∈ ords, cur ≤ d ∧ d ≤ endD))
    ∧ dfs = ((oracle.filterMap (fun r => (obsCall tz r).toOption)).take
        (endD + 1 - cur)).filter (fun df => !df.isEmpty) := by
  intro oracle
  induction oracle with
  | nil =>
    intro cur calls dfs h
    rw [obsRangeLoop_nil_eq] at h
    by_cases hgt : cur > endD
    · rw [if_pos hgt] at h
      rw [Option.some_inj] at h
      obtain ⟨h4, h5⟩ := Prod.ext_iff.mp h
      simp only at h4 h5
      obtain rfl := h4.symm
      obtain rfl : dfs = [] := by
        cases h5; rfl
      refine ⟨⟨[], by simp, by simp, ?_, by simp⟩, ?_⟩
      · intro d hcd hde
        exact absurd (Nat.le_trans hcd hde) (by omega)
      · have hz : endD + 1 - cur = 0 := by omega
        simp [hz]
    · rw [if_neg hgt] at h
      simp at h
  | cons r rest ih =>
    intro cur calls dfs h
    rw [obsRangeLoop_cons_eq] at h
    by_cases hgt : cur > endD
    · rw [if_pos hgt] at h
      rw [Option.some_inj] at h
      obtain ⟨h4, h5⟩ := Prod.ext_iff.mp h
      simp only at h4 h5
      obtain rfl := h4.symm
      obtain rfl : dfs = [] := by
        cases h5; rfl
      refine ⟨⟨[], by simp, by simp, ?_, by simp⟩, ?_⟩
      · intro d hcd hde
        exact absurd (Nat.le_trans hcd hde) (by omega)
      · have hz : endD + 1 - cur = 0 := by omega
        simp [hz]
    · rw [if_neg hgt] at h
      have hle : cur ≤ endD := by omega
      cases hcall : obsCall tz r with
      | ok df =>
        rw [hcall] at h
        simp only [obsStep] at h
        cases hnext : obsRangeLoop station endD tz (cur + 1) rest with
        | none => rw [hnext] at h; simp at h
        | some out =>
          obtain ⟨calls1, res1⟩ := out
          rw [hnext] at h
          simp only [Option.map_some'] at h
          rw [Option.some_inj] at h
          obtain ⟨h4, h5⟩ := Prod.ext_iff.mp h
          simp only at h4 h5
          obtain rfl := h4.symm
          cases res1 with
          | error e => simp [Except.map] at h5
          | ok dfs1 =>
            simp only [Except.map] at h5
            obtain rfl : dfs = (if df.isEmpty then dfs1 else df :: dfs1) := by
              cases h5; rfl
            obtain ⟨⟨ords1, hco, hpw, hcov, hbd⟩, hdfs1⟩ :=
              ih (cur + 1) calls1 dfs1 hnext
            refine ⟨⟨cur :: ords1, by simp [hco], ?_, ?_, ?_⟩, ?_⟩
            · refine (List.pairwise_cons).mpr ⟨?_, hpw⟩
              intro b hb
              have := (hbd b hb).1
              omega
            · intro d hcd hde
              by_cases hdc : d = cur
              · simp [hdc]
              · have hd1 : cur + 1 ≤ d := by omega
                exact List.mem_cons_of_mem _ (hcov d hd1 hde)
            · intro d hd
              rcases List.mem_cons.mp hd with rfl | hd'
              · exact ⟨Nat.le_refl d, hle⟩
              · have := hbd d hd'
                exact ⟨by omega, this.2⟩
            · have hfm : (r :: rest).filterMap
                  (fun r => (obsCall tz r).toOption) =
                  df :: rest.filterMap (fun r => (obsCall tz r).toOption) := by
                simp [List.filterMap_cons, hcall, Except.toOption]
              rw [hfm]
              have hn : endD + 1 - cur = (endD + 1 - (cur + 1)) + 1 := by
                omega
              rw [hn, List.take_succ_cons, List.filter_cons, ← hdfs1]
              cases hde : df.isEmpty <;> simp [hde]
      | error e =>
        rw [hcall] at h
        cases e with
        | http s =>
          simp only [obsStep] at h
          by_cases hs : s = 429
          · rw [if_pos hs] at h
            cases hsame : obsRangeLoop station endD tz cur rest with
            | none => rw [hsame] at h; simp at h
            | some out =>
              obtain ⟨calls1, res1⟩ := out
              rw [hsame] at h
              simp only [Option.map_some'] at h
              rw [Option.some_inj] at h
              obtain ⟨h4, h5⟩ := Prod.ext_iff.mp h
              simp only at h4 h5
              obtain rfl := h4.symm
              obtain rfl : res1 = Except.ok dfs := h5
              obtain ⟨⟨ords1, hco, hpw, hcov, hbd⟩, hdfs1⟩ :=
                ih cur calls1 dfs hsame
              refine ⟨⟨cur :: ords1, by simp [hco], ?_, ?_, ?_⟩, ?_⟩
              · exact (List.pairwise_cons).mpr
                  ⟨fun b hb => (hbd b hb).1, hpw⟩
              · intro d hcd hde
                exact List.mem_cons_of_mem _ (hcov d hcd hde)
              · intro d hd
                rcases List.mem_cons.mp hd with rfl | hd'
                · exact ⟨Nat.le_refl d, hle⟩
                · exact hbd d hd'
              · have hfm : (r :: rest).filterMap
                    (fun r => (obsCall tz r).toOption) =
                    rest.filterMap (fun r => (obsCall tz r).toOption) := by
                  simp [List.filterMap_cons, hcall, Except.toOption]
                rw [hfm]
                exact hdfs1
          · rw [if_neg hs] at h
            simp at h
        | value m =>
          simp only [obsStep] at h
          simp at h

/-- C4: for start_date.date() <= end_date.date() (as ordinals), whenever
the range helper's loop terminates with a returned table, it has called
the single-date observation endpoint at least once for every calendar
date from start to end inclusive, in non-decreasing date order with the
date passed in ISO format; the collected tables are exactly the
non-empty per-date tables in date order; and the helper returns their
concatenation, or an empty table when every per-date table is empty. -/
theorem obs_range_correct (station : String) (startD endD : Nat)
    (tz : Option String) (oracle : List Response) (calls : List Request)
    (dfs : List DataFrame)
    (_hse : startD ≤ endD)
    (hloop : obsRangeLoop station endD tz startD oracle =
      some (calls, Except.ok dfs)) :
    (∃ ords : List Nat,
      calls = ords.map (fun d => obsRequest station (isoOfOrdinal d))
      ∧ List.Pairwise (fun a b => a ≤ b) ords
      ∧ (∀ d, startD ≤ d → d ≤ endD → d ∈ ords)
      ∧ (∀ d ∈ ords, startD ≤ d ∧ d ≤ endD))
    ∧ dfs = ((oracle.filterMap (fun r => (obsCall tz r).toOption)).take
        (endD + 1 - startD)).filter (fun df => !df.isEmpty)
    ∧ get_station_historical_observations_range station startD endD tz oracle
        = some (calls, Except.ok
            (if dfs.isEmpty then emptyFrame else pdConcat dfs)) := by
  obtain ⟨ho, hd⟩ :=
    obsRangeLoop_inv station endD tz oracle startD calls dfs hloop
  refine ⟨ho, hd, ?_⟩
  rw [get_station_historical_observations_range, hloop]
  rfl

/-- Witness for `obs_range_correct` on a one-day range with a single
successful empty response. -/
theorem obs_range_correct_witness :
    (1 ≤ 1)
    ∧ obsRangeLoop "st" 1 none 1 [⟨200, Json.arr []⟩]
        = some ([obsRequest "st" (isoOfOrdinal 1)], Except.ok [])
    ∧ get_station_historical_observations_range "st" 1 1 none
        [⟨200, Json.arr []⟩]
        = some ([obsRequest "st" (isoOfOrdinal 1)], Except.ok
            (if ([] : List DataFrame).isEmpty then emptyFrame
             else pdConcat [])) := by
  refine ⟨Nat.le_refl 1, by rfl, ?_⟩
  exact (obs_range_correct "st" 1 1 none [⟨200, Json.arr []⟩]
    [obsRequest "st" (isoOfOrdinal 1)] [] (Nat.le_refl 1) (by rfl)).2.2

/-- C5: inside the date range, a single-date call that raises an
HTTPError with status 429 makes the helper sleep and retry the same
date without advancing (so, whenever the loop terminates with a table,
every date of the range was still called); an HTTPError with any other
status code propagates to the caller unchanged. -/
theorem obs_range_backoff :
    (∀ (station : String) (cur endD : Nat) (tz : Option String)
      (r : Response) (rest : List Response),
      cur ≤ endD →
      obsCall tz r = Except.error (PyError.http 429) →
      obsRangeLoop station endD tz cur (r :: rest) =
        (obsRangeLoop station endD tz cur rest).map
          (fun out => (obsRequest station (isoOfOrdinal cur) :: out.1,
            out.2)))
    ∧ (∀ (station : String) (cur endD : Nat) (tz : Option String)
      (r : Response) (rest : List Response) (s : Nat),
      cur ≤ endD →
      obsCall tz r = Except.error (PyError.http s) → s ≠ 429 →
      obsRangeLoop station endD tz cur (r :: rest) =
        some ([obsRequest station (isoOfOrdinal cur)],
          Except.error (PyError.http s)))
    ∧ (∀ (station : String) (endD : Nat) (tz : Option String)
      (oracle : List Response) (cur : Nat) (calls : List Request)
      (dfs : List DataFrame),
      obsRangeLoop station endD tz cur oracle =
        some (calls, Except.ok dfs) →
      ∀ d, cur ≤ d → d ≤ endD →
        obsRequest station (isoOfOrdinal d) ∈ calls) := by
  refine ⟨?_, ?_, ?_⟩
  · intro station cur endD tz r rest hle hcall
    rw [obsRangeLoop_cons_eq, if_neg (by omega), hcall]
    simp [obsStep]
  · intro station cur endD tz r rest s hle hcall hs
    rw [obsRangeLoop_cons_eq, if_neg (by omega), hcall]
    simp [obsStep, hs]
  · intro station endD tz oracle cur calls dfs h d hcd hde
    obtain ⟨⟨ords, hco, _, hcov, _⟩, _⟩ :=
      obsRangeLoop_inv station endD tz oracle cur calls dfs h
    rw [hco]
    exact List.mem_map.mpr ⟨d, hcov d hcd hde, rfl⟩

/-- Witness for `obs_range_backoff`: a 429 response retries day 1. -/
theorem obs_range_backoff_witness :
    ((1 : Nat) ≤ 1)
    ∧ obsCall none ⟨429, Json.null⟩ = Except.error (PyError.http 429)
    ∧ obsRangeLoop "st" 1 none 1 [⟨429, Json.null⟩] =
        (obsRangeLoop "st" 1 none 1 ([] : List Response)).map
          (fun out => (obsRequest "st" (isoOfOrdinal 1) :: out.1, out.2)) := by
  refine ⟨Nat.le_refl 1, by rfl, ?_⟩
  exact obs_range_backoff.1 "st" 1 1 none ⟨429, Json.null⟩ []
    (Nat.le_refl 1) (by rfl)

/-- C10: for start_date.date() > end_date.date() (as ordinals) the range
helper performs no HTTP request at all and returns an empty table. -/
theorem obs_range_empty_range (station : String) (startD endD : Nat)
    (tz : Option String) (oracle : List Response) (h : endD < startD) :
    get_station_historical_observations_range station startD endD tz oracle
      = some ([], Except.ok emptyFrame) := by
  have hloop : obsRangeLoop station endD tz startD oracle =
      some ([], Except.ok []) := by
    cases oracle with
    | nil => rw [obsRangeLoop_nil_eq, if_pos (by omega)]
    | cons r rest => rw [obsRangeLoop_cons_eq, if_pos (by omega)]
  rw [get_station_historical_observations_range, hloop]
  rfl

/-- Witness for `obs_range_empty_range` on the inverted range 2 > 1. -/
theorem obs_range_empty_range_witness :
    ((1 : Nat) < 2)
    ∧ get_station_historical_observations_range "st" 2 1 none []
        = some ([], Except.ok emptyFrame) := by
  exact ⟨by decide, obs_range_empty_range "st" 2 1 none [] (by decide)⟩

theorem fetchTable_spec (resp : Response) (rp tz : Option String)
    (hvalid : resp.status < 600) :
    (400 ≤ resp.status →
      fetchTable resp rp tz = Except.error (PyError.http resp.status))
    ∧ (resp.status < 400 →
      fetchTable resp rp tz =
        (jsonToDataframe resp.body rp tz).mapError PyError.value) := by
  constructor
  · intro h4
    have hr : raisesForStatus resp.status = true := by
      simp only [raisesForStatus, Bool.and_eq_true, decide_eq_true_eq]
      omega
    simp [fetchTable, hr]
  · intro h4
    have hr : raisesForStatus resp.status = false := by
      have h4' : ¬ 400 ≤ resp.status := by omega
      simp [raisesForStatus, h4']
    simp [fetchTable, hr]

/-- C6: every endpoint method raises the HTTPError of
`raise_for_status` exactly when the response status is a client or
server error (the non-success statuses of valid HTTP, 400-599), and
returns a table only otherwise, in which case the table is exactly the
normalization of the parsed JSON body (whose own ValueError, when any,
propagates); there is no retry, fallback or default value in these
methods. -/
theorem endpoint_error_propagation (resp : Response)
    (hvalid : resp.status < 600) :
    ((400 ≤ resp.status →
        (get_places resp).2 = Except.error (PyError.http resp.status))
      ∧ (resp.status < 400 →
        (get_places resp).2 =
          (jsonToDataframe resp.body none (some TIME_ZONE)).mapError
            PyError.value))
    ∧ (∀ place : String,
        (400 ≤ resp.status →
          (get_place_info place resp).2 =
            Except.error (PyError.http resp.status))
        ∧ (resp.status < 400 →
          (get_place_info place resp).2 =
            (jsonToDataframe resp.body none (some TIME_ZONE)).mapError
              PyError.value))
    ∧ (∀ place : String,
        (400 ≤ resp.status →
          (get_place_forecasts place resp).2 =
            Except.error (PyError.http resp.status))
        ∧ (resp.status < 400 →
          (get_place_forecasts place resp).2 =
            (jsonToDataframe resp.body none (some TIME_ZONE)).mapError
              PyError.value))
    ∧ (∀ (place ftype : String) (tz : Option String),
        (400 ≤ resp.status →
          (get_place_forecast_by_type place ftype tz resp).2 =
            Except.error (PyError.http resp.status))
        ∧ (resp.status < 400 →
          (get_place_forecast_by_type place ftype tz resp).2 =
            (jsonToDataframe resp.body (some "forecastTimestamps")
              tz).mapError PyError.value))
    ∧ ((400 ≤ resp.status →
        (get_stations resp).2 = Except.error (PyError.http resp.status))
      ∧ (resp.status < 400 →
        (get_stations resp).2 =
          (jsonToDataframe resp.body none (some TIME_ZONE)).mapError
            PyError.value))
    ∧ (∀ station : String,
        (400 ≤ resp.status →
          (get_station_info station resp).2 =
            Except.error (PyError.http resp.status))
        ∧ (resp.status < 400 →
          (get_station_info station resp).2 =
            (jsonToDataframe resp.body none (some TIME_ZONE)).mapError
              PyError.value))
    ∧ (∀ station : String,
        (400 ≤ resp.status →
          (get_more_station_info station resp).2 =
            Except.error (PyError.http resp.status))
        ∧ (resp.status < 400 →
          (get_more_station_info station resp).2 =
            (jsonToDataframe resp.body none (some TIME_ZONE)).mapError
              PyError.value))
    ∧ (∀ (station date : String) (tz : Option String),
        (400 ≤ resp.status →
          (get_station_historical_observations station date tz resp).2 =
            Except.error (PyError.http resp.status))
        ∧ (resp.status < 400 →
          (get_station_historical_observations station date tz resp).2 =
            (jsonToDataframe resp.body (some "observations") tz).mapError
              PyError.value)) := by
  refine ⟨?_, ?_, ?_, ?_, ?_, ?_, ?_, ?_⟩
  · exact fetchTable_spec resp none (some TIME_ZONE) hvalid
  · intro place
    exact fetchTable_spec resp none (some TIME_ZONE) hvalid
  · intro place
    exact fetchTable_spec resp none (some TIME_ZONE) hvalid
  · intro place ftype tz
    exact fetchTable_spec resp (some "forecastTimestamps") tz hvalid
  · exact fetchTable_spec resp none (some TIME_ZONE) hvalid
  · intro station
    exact fetchTable_spec resp none (some TIME_ZONE) hvalid
  · intro station
    exact fetchTable_spec resp none (some TIME_ZONE) hvalid
  · intro station date tz
    exact fetchTable_spec resp (some "observations") tz hvalid

/-- Witness for `endpoint_error_propagation` at a 500 response. -/
theorem endpoint_error_propagation_witness :
    ((500 : Nat) < 600) ∧ (400 ≤ (500 : Nat))
    ∧ (get_places ⟨500, Json.null⟩).2 = Except.error (PyError.http 500) := by
  refine ⟨by decide, by decide, ?_⟩
  exact (endpoint_error_propagation ⟨500, Json.null⟩ (by decide)).1.1
    (by decide)

/-- C7: every request of the client is a single HTTP GET at one of the
fixed endpoint templates under the base URL, with the method's
arguments substituted; `forecast_type` defaults to "long-term" and the
observation `date` defaults to "latest". -/
theorem endpoint_requests (place ftype station date : String)
    (tz : Option String) (resp : Response) :
    (get_places resp).1 = ⟨"GET", "https://api.meteo.lt/v1/places"⟩
    ∧ (get_place_info place resp).1 =
        ⟨"GET", "https://api.meteo.lt/v1/places/" ++ place⟩
    ∧ (get_place_forecasts place resp).1 =
        ⟨"GET", "https://api.meteo.lt/v1/places/" ++ place ++ "/forecasts"⟩
    ∧ (get_place_forecast_by_type place ftype tz resp).1 =
        ⟨"GET", "https://api.meteo.lt/v1/places/" ++ place ++
          "/forecasts/" ++ ftype⟩
    ∧ default_forecast_type = "long-term"
    ∧ (get_stations resp).1 = ⟨"GET", "https://api.meteo.lt/v1/stations"⟩
    ∧ (get_station_info station resp).1 =
        ⟨"GET", "https://api.meteo.lt/v1/stations/" ++ station⟩
    ∧ (get_more_station_info station resp).1 =
        ⟨"GET", "https://api.meteo.lt/v1/stations/" ++ station ++
          "/observations"⟩
    ∧ (get_station_historical_observations station date tz resp).1 =
        ⟨"GET", "https://api.meteo.lt/v1/stations/" ++ station ++
          "/observations/" ++ date⟩
    ∧ default_observation_date = "latest" := by
  exact ⟨rfl, rfl, rfl, rfl, rfl, rfl, rfl, rfl, rfl, rfl⟩

/-- C8: the client is stateless: no method call changes the client (the
session set by `__init__` is its only attribute and is left unchanged),
and a call's observable outcome does not depend on which calls were made
before it. -/
theorem client_stateless :
    (∀ (c : MeteoClient) (call : ApiCall), (runCall c call).2 = c)
    ∧ (∀ (c : MeteoClient) (pre : List ApiCall), (runCalls c pre).2 = c)
    ∧ (∀ (c : MeteoClient) (pre : List ApiCall) (call : ApiCall),
        (runCall (runCalls c pre).2 call).1 = (runCall c call).1) := by
  have h1 : ∀ (c : MeteoClient) (call : ApiCall), (runCall c call).2 = c := by
    intro c call
    cases call <;> rfl
  have h2 : ∀ (c : MeteoClient) (pre : List ApiCall),
      (runCalls c pre).2 = c := by
    intro c pre
    induction pre generalizing c with
    | nil => rfl
    | cons a rest ih =>
      have hstep : (runCalls c (a :: rest)).2 =
          (runCalls (runCall c a).2 rest).2 := rfl
      rw [hstep, h1 c a]
      exact ih c
  refine ⟨h1, h2, ?_⟩
  intro c pre call
  rw [h2 c pre]

end Meteo

